import Mathlib

/-!
Verification of the wallet-readiness coordinator in
`src/client/src/contexts/SmartAccountContext.tsx` and of the salt generator in
`src/client/src/lib/gasless-deployment.ts`.

The coordinator is embedded as an explicit transition system: React state and
refs become fields of `CoordState`; promises and timers are tracked by ids
(`resolvedIds` / `rejectedIds` record settled promises, `pendingTimers` the
timers created by `setTimeout` and not yet fired or cancelled, `waiters` the
ids of watcher promises some suspended `initSmartAccount` call is awaiting).
`initSmartAccount` suspends only while awaiting the watcher promise; the
delegate work (`toSimpleSmartAccount` / `createSmartAccountClient`) is opaque
to this coordinator and is modelled by a `DelegateOutcome` parameter, as the
specification itself treats it.  Settling a promise also runs the resumed
continuations, reflecting that microtasks run before any other task.
-/

set_option autoImplicit false

namespace SmartAccountContext

/-- `SmartAccountStatus` from line 14 of the source. -/
inductive SmartAccountStatus where
  | idle
  | waiting_for_wallet
  | initializing
  | ready
  | error
  deriving DecidableEq, Repr

/-- A wallet as reported by the auth provider; only `walletClientType` is read. -/
structure Wallet where
  walletClientType : String
  deriving DecidableEq, Repr

/-- `WALLET_READY_TIMEOUT` from line 12 of the source (milliseconds). -/
def WALLET_READY_TIMEOUT : Nat := 25000

/-- The message built by the timeout callback (line 82 of the source). -/
def walletCreationTimeoutMessage : String :=
  "Wallet creation timeout. Please try again or refresh the page."

/-- The cached smart-account handle: an opaque client plus an address. -/
abbrev Handle := Nat × String

/-- The coordinator state: React `useState` fields and the three `useRef`
cells, together with the bookkeeping of promise ids and timer ids needed to
express liveness of the watcher promise. -/
structure CoordState where
  smartAccountClient : Option Nat
  smartAccountAddress : Option String
  isLoading : Bool
  error : Option String
  smartAccountStatus : SmartAccountStatus
  /-- `walletReadyPromiseRef.current`, as the id of the watcher promise. -/
  walletReadyPromise : Option Nat
  /-- `walletReadyResolveRef.current`, as the id of the promise it resolves. -/
  walletReadyResolve : Option Nat
  /-- `timeoutIdRef.current`, as the id of the timer it would cancel. -/
  timeoutId : Option Nat
  /-- Timers created by `setTimeout`, not yet fired and not yet cancelled. -/
  pendingTimers : List Nat
  /-- Ids of watcher promises that were resolved. -/
  resolvedIds : List Nat
  /-- Ids of watcher promises that were rejected. -/
  rejectedIds : List Nat
  /-- Ids of watcher promises awaited by a suspended `initSmartAccount` call. -/
  waiters : List Nat
  /-- Source of fresh ids for watchers. -/
  nextId : Nat
  /-- Number of invocations of the smart-account initializer delegate. -/
  delegateCalls : Nat
  deriving DecidableEq, Repr

/-- The state before any effect has run. -/
def initialState : CoordState :=
  { smartAccountClient := none
    smartAccountAddress := none
    isLoading := false
    error := none
    smartAccountStatus := SmartAccountStatus.idle
    walletReadyPromise := none
    walletReadyResolve := none
    timeoutId := none
    pendingTimers := []
    resolvedIds := []
    rejectedIds := []
    waiters := []
    nextId := 0
    delegateCalls := 0 }

/-- `clearWalletReadinessWatcher` (lines 59-66): cancel the timer if one is
recorded, then drop the promise and resolver references. -/
def clearWalletReadinessWatcher (s : CoordState) : CoordState :=
  let s1 :=
    match s.timeoutId with
    | some t => { s with pendingTimers := s.pendingTimers.erase t, timeoutId := none }
    | none => s
  { s1 with walletReadyPromise := none, walletReadyResolve := none }

/-- `createWalletReadinessWatcher` (lines 69-93): clear any existing watcher
first, set status to `waiting_for_wallet`, then create the promise, capture its
resolver and start the timeout timer, all under a fresh id. -/
def createWalletReadinessWatcher (s : CoordState) : CoordState :=
  let s1 := clearWalletReadinessWatcher s
  let w := s1.nextId
  { s1 with
      smartAccountStatus := SmartAccountStatus.waiting_for_wallet
      walletReadyPromise := some w
      walletReadyResolve := some w
      timeoutId := some w
      pendingTimers := w :: s1.pendingTimers
      nextId := w + 1 }

/-- Settle a promise by resolution; promises settle at most once. -/
def resolvePromise (s : CoordState) (w : Nat) : CoordState :=
  if w ∈ s.resolvedIds ∨ w ∈ s.rejectedIds then s
  else { s with resolvedIds := w :: s.resolvedIds }

/-- Settle a promise by rejection; promises settle at most once. -/
def rejectPromise (s : CoordState) (w : Nat) : CoordState :=
  if w ∈ s.resolvedIds ∨ w ∈ s.rejectedIds then s
  else { s with rejectedIds := w :: s.rejectedIds }

/-- The wallet filter at line 126 of the source:
`wallets.find((wallet) => wallet.walletClientType === 'privy')`. -/
def initWalletPredicate (w : Wallet) : Bool :=
  w.walletClientType == "privy"

/-- The wallet filter at line 243 of the source:
`wallets?.some((wallet) => wallet.walletClientType === 'privy')`. -/
def retryWalletPredicate (w : Wallet) : Bool :=
  w.walletClientType == "privy"

/-- The wallet filter at line 264 of the source:
`wallets?.some((wallet) => wallet.walletClientType === 'privy')`. -/
def effectWalletPredicate (w : Wallet) : Bool :=
  w.walletClientType == "privy"

/-- Result of the delegated smart-account construction
(`toSimpleSmartAccount` through `createSmartAccountClient`, lines 155-214):
either a client and its address, or a thrown error with a message. -/
inductive DelegateOutcome where
  | ok (client : Nat) (address : String)
  | err (msg : String)
  deriving DecidableEq, Repr

/-- The `try` block of `initSmartAccount` (lines 125-231), entered after
`setIsLoading(true)`, `setSmartAccountStatus('initializing')`,
`setError(null)`: look for the embedded wallet; if none, set status back to
`waiting_for_wallet` and return null; otherwise run the delegate, which either
throws (`Except.error`) or yields the handle, in which case the watcher is
cleared, the handle stored and status set to `ready`. -/
def initTryBlock (wallets : List Wallet) (outcome : DelegateOutcome) (s : CoordState) :
    Except String (Option Handle) × CoordState :=
  match wallets.find? initWalletPredicate with
  | none =>
      (Except.ok none,
        { s with isLoading := false
                 smartAccountStatus := SmartAccountStatus.waiting_for_wallet })
  | some _ =>
      let s1 := { s with delegateCalls := s.delegateCalls + 1 }
      match outcome with
      | DelegateOutcome.ok c a =>
          let s2 := clearWalletReadinessWatcher s1
          (Except.ok (some (c, a)),
            { s2 with smartAccountClient := some c
                      smartAccountAddress := some a
                      smartAccountStatus := SmartAccountStatus.ready })
      | DelegateOutcome.err m => (Except.error m, s1)

/-- The part of `initSmartAccount` after the watcher await (lines 121-234):
the preamble, the `try` block, the `catch` converting a thrown error into the
`error` status plus its message and a null result, and the `finally` resetting
`isLoading`. -/
def initAfterAwait (wallets : List Wallet) (outcome : DelegateOutcome) (s : CoordState) :
    Option Handle × CoordState :=
  let s1 := { s with isLoading := true
                     smartAccountStatus := SmartAccountStatus.initializing
                     error := none }
  match initTryBlock wallets outcome s1 with
  | (Except.ok r, s2) => (r, { s2 with isLoading := false })
  | (Except.error m, s2) =>
      (none,
        { s2 with error := some m
                  smartAccountStatus := SmartAccountStatus.error
                  isLoading := false })

/-- How the awaited watcher promise eventually settles, from the point of view
of a single `initSmartAccount` call. -/
inductive WatcherSettle where
  | resolves
  | rejects (msg : String)
  deriving DecidableEq, Repr

/-- `initSmartAccount` (lines 95-235) as a single call in isolation: the
not-authenticated early return, the cached-handle fast path, the await of a
pending watcher promise with its `catch` (lines 108-119), and the
initialization proper.  `settle` says how the environment settles the awaited
promise; it is unused when no watcher is pending. -/
def initSmartAccount (authenticated hasUser : Bool) (wallets : List Wallet)
    (settle : WatcherSettle) (outcome : DelegateOutcome) (s : CoordState) :
    Option Handle × CoordState :=
  if !authenticated || !hasUser then (none, s)
  else
    match s.smartAccountClient, s.smartAccountAddress with
    | some c, some a => (some (c, a), s)
    | _, _ =>
      match s.walletReadyPromise with
      | some _ =>
          let s1 := { s with smartAccountStatus := SmartAccountStatus.waiting_for_wallet }
          match settle with
          | WatcherSettle.rejects m =>
              (none,
                { s1 with error := some m
                          smartAccountStatus := SmartAccountStatus.error })
          | WatcherSettle.resolves => initAfterAwait wallets outcome s1
      | none => initAfterAwait wallets outcome s

/-- An `initSmartAccount` call inside the transition system: if a watcher is
pending the call suspends (it is recorded in `waiters` under the promise id);
otherwise it runs to completion. -/
def stepInitCall (authenticated hasUser : Bool) (wallets : List Wallet)
    (outcome : DelegateOutcome) (s : CoordState) : CoordState :=
  if !authenticated || !hasUser then s
  else
    match s.smartAccountClient, s.smartAccountAddress with
    | some _, some _ => s
    | _, _ =>
      match s.walletReadyPromise with
      | some w =>
          { s with smartAccountStatus := SmartAccountStatus.waiting_for_wallet
                   waiters := w :: s.waiters }
      | none => (initAfterAwait wallets outcome s).2

/-- Run the post-await continuation of `n` resumed `initSmartAccount` calls. -/
def runWaiters : Nat → List Wallet → DelegateOutcome → CoordState → CoordState
  | 0, _, _, s => s
  | Nat.succ n, wallets, outcome, s =>
      runWaiters n wallets outcome (initAfterAwait wallets outcome s).2

/-- Resolving the watcher promise `w` (line 269) followed by
`clearWalletReadinessWatcher` (line 271); once the current task finishes, the
microtasks resume every call suspended on `w`. -/
def resolveAndResume (s : CoordState) (w : Nat) (wallets : List Wallet)
    (outcome : DelegateOutcome) : CoordState :=
  let s1 := resolvePromise s w
  let s2 := clearWalletReadinessWatcher s1
  let n := (s2.waiters.filter (fun v => v == w)).length
  runWaiters n wallets outcome { s2 with waiters := s2.waiters.filter (fun v => v != w) }

/-- The body of the `setTimeout` callback for watcher `t` (lines 80-88):
set status `error`, record the timeout message, reject the promise, clear the
watcher; calls suspended on `t` then resume in their `catch` (lines 113-118),
which stores the same message and status and returns null. -/
def fireTimeoutCallback (s : CoordState) (t : Nat) : CoordState :=
  let s1 := { s with smartAccountStatus := SmartAccountStatus.error
                     error := some walletCreationTimeoutMessage }
  let s2 := rejectPromise s1 t
  let s3 := clearWalletReadinessWatcher s2
  { s3 with waiters := s3.waiters.filter (fun v => v != t) }

/-- A pending timer reaches its deadline and fires. -/
def stepFire (s : CoordState) : CoordState :=
  match s.pendingTimers with
  | [] => s
  | t :: rest => fireTimeoutCallback { s with pendingTimers := rest } t

/-- The bootstrap effect (lines 257-281), run on an auth or wallet-list
change: on loss of readiness or authentication clear the watcher and reset the
status to `idle`; if an embedded wallet is present, resolve a pending watcher
and clear it; if none is present and no watcher exists, create one. -/
def stepAuthEffect (ready authenticated : Bool) (wallets : List Wallet)
    (outcome : DelegateOutcome) (s : CoordState) : CoordState :=
  if !ready || !authenticated then
    let s1 := clearWalletReadinessWatcher s
    { s1 with smartAccountStatus := SmartAccountStatus.idle }
  else if wallets.any effectWalletPredicate then
    match s.walletReadyResolve with
    | some w => resolveAndResume s w wallets outcome
    | none => clearWalletReadinessWatcher s
  else
    match s.walletReadyPromise with
    | none => createWalletReadinessWatcher s
    | some _ => s

/-- `walletReadyResolveRef.current?.()` (line 246): invoke the resolver
reference if it is set, resolving its promise and resuming the suspended
calls; a cleared reference makes this a no-op. -/
def invokeResolverRef (s : CoordState) (wallets : List Wallet)
    (outcome : DelegateOutcome) : CoordState :=
  match s.walletReadyResolve with
  | some w => resolveAndResume s w wallets outcome
  | none => s

/-- `retryWalletCreation` (lines 238-254): clear the error, clear the watcher,
then — if an embedded wallet is present — call the (already cleared) resolver
reference, clear again and start `initSmartAccount`; otherwise create a fresh
watcher and start `initSmartAccount`. -/
def retryWalletCreation (authenticated hasUser : Bool) (wallets : List Wallet)
    (outcome : DelegateOutcome) (s : CoordState) : CoordState :=
  let s1 := { s with error := none }
  let s2 := clearWalletReadinessWatcher s1
  if wallets.any retryWalletPredicate then
    stepInitCall authenticated hasUser wallets outcome
      (clearWalletReadinessWatcher (invokeResolverRef s2 wallets outcome))
  else
    stepInitCall authenticated hasUser wallets outcome
      (createWalletReadinessWatcher s2)

/-- The observable events of the coordinator. -/
inductive Event where
  | authEffect (ready authenticated : Bool) (wallets : List Wallet) (outcome : DelegateOutcome)
  | effectCleanup
  | retryEv (authenticated hasUser : Bool) (wallets : List Wallet) (outcome : DelegateOutcome)
  | initCall (authenticated hasUser : Bool) (wallets : List Wallet) (outcome : DelegateOutcome)
  | fireTimeout
  deriving DecidableEq, Repr

/-- One transition of the coordinator. -/
def step (s : CoordState) : Event → CoordState
  | Event.authEffect r a ws o => stepAuthEffect r a ws o s
  | Event.effectCleanup => clearWalletReadinessWatcher s
  | Event.retryEv a u ws o => retryWalletCreation a u ws o s
  | Event.initCall a u ws o => stepInitCall a u ws o s
  | Event.fireTimeout => stepFire s

/-- Run a sequence of events. -/
def run (s : CoordState) (es : List Event) : CoordState := es.foldl step s

/-! ## Invariants of the coordinator -/

/-- No watcher exists: all three refs are empty and no timer is pending. -/
def WatcherFree (s : CoordState) : Prop :=
  s.walletReadyPromise = none ∧ s.walletReadyResolve = none ∧
    s.timeoutId = none ∧ s.pendingTimers = []

/-- A single watcher `w` exists: the three refs agree on it, its timer is the
only pending one, its id is in range and its promise is unsettled. -/
def WatcherActive (s : CoordState) (w : Nat) : Prop :=
  s.walletReadyPromise = some w ∧ s.walletReadyResolve = some w ∧
    s.timeoutId = some w ∧ s.pendingTimers = [w] ∧ w < s.nextId ∧
    w ∉ s.resolvedIds ∧ w ∉ s.rejectedIds

/-- Every settled promise id was allocated. -/
def SettledBelow (s : CoordState) : Prop :=
  (∀ u ∈ s.resolvedIds, u < s.nextId) ∧ ∀ u ∈ s.rejectedIds, u < s.nextId

/-- While a timeout timer is pending, the status is `waiting_for_wallet`. -/
def StatusInv (s : CoordState) : Prop :=
  s.pendingTimers ≠ [] → s.smartAccountStatus = SmartAccountStatus.waiting_for_wallet

/-- The coordinator invariant. -/
def WF (s : CoordState) : Prop :=
  (WatcherFree s ∨ ∃ w, WatcherActive s w) ∧ SettledBelow s ∧ StatusInv s

theorem WF_initialState : WF initialState := by
  refine ⟨Or.inl ⟨rfl, rfl, rfl, rfl⟩, ⟨?_, ?_⟩, ?_⟩
  · intro u hu; cases hu
  · intro u hu; cases hu
  · intro hc; exact absurd rfl hc

/-! ### Characterizations of the watcher helpers -/

theorem clearWatcher_eq_of_none (s : CoordState)
    (ht : s.timeoutId = none) (hp : s.pendingTimers = []) :
    clearWalletReadinessWatcher s =
      { s with walletReadyPromise := none, walletReadyResolve := none,
               timeoutId := none, pendingTimers := [] } := by
  obtain ⟨c, ad, il, er, st, pr, rs, ti, pt, rv, rj, wa, ni, dc⟩ := s
  simp only at ht hp
  subst ht hp
  rfl

theorem clearWatcher_eq_of_single (s : CoordState) (w : Nat)
    (ht : s.timeoutId = some w) (hp : s.pendingTimers = [w]) :
    clearWalletReadinessWatcher s =
      { s with walletReadyPromise := none, walletReadyResolve := none,
               timeoutId := none, pendingTimers := [] } := by
  obtain ⟨c, ad, il, er, st, pr, rs, ti, pt, rv, rj, wa, ni, dc⟩ := s
  simp only at ht hp
  subst ht hp
  simp [clearWalletReadinessWatcher]

theorem clearWatcher_of_WF (s : CoordState) (h : WF s) :
    clearWalletReadinessWatcher s =
      { s with walletReadyPromise := none, walletReadyResolve := none,
               timeoutId := none, pendingTimers := [] } := by
  rcases h.1 with ⟨-, -, h3, h4⟩ | ⟨w, -, -, h3, h4, -, -, -⟩
  · exact clearWatcher_eq_of_none s h3 h4
  · exact clearWatcher_eq_of_single s w h3 h4

theorem createWatcher_of_WF (s : CoordState) (h : WF s) :
    createWalletReadinessWatcher s =
      { s with smartAccountStatus := SmartAccountStatus.waiting_for_wallet
               walletReadyPromise := some s.nextId
               walletReadyResolve := some s.nextId
               timeoutId := some s.nextId
               pendingTimers := [s.nextId]
               nextId := s.nextId + 1 } := by
  unfold createWalletReadinessWatcher
  rw [clearWatcher_of_WF s h]

/-! ### Frame lemmas for the post-await continuation -/

theorem clearWatcher_nextId (s : CoordState) :
    (clearWalletReadinessWatcher s).nextId = s.nextId := by
  unfold clearWalletReadinessWatcher
  rcases h : s.timeoutId with - | t <;> simp [h]

theorem clearWatcher_resolvedIds (s : CoordState) :
    (clearWalletReadinessWatcher s).resolvedIds = s.resolvedIds := by
  unfold clearWalletReadinessWatcher
  rcases h : s.timeoutId with - | t <;> simp [h]

theorem clearWatcher_rejectedIds (s : CoordState) :
    (clearWalletReadinessWatcher s).rejectedIds = s.rejectedIds := by
  unfold clearWalletReadinessWatcher
  rcases h : s.timeoutId with - | t <;> simp [h]

theorem clearWatcher_waiters (s : CoordState) :
    (clearWalletReadinessWatcher s).waiters = s.waiters := by
  unfold clearWalletReadinessWatcher
  rcases h : s.timeoutId with - | t <;> simp [h]

theorem clearWatcher_promise (s : CoordState) :
    (clearWalletReadinessWatcher s).walletReadyPromise = none := by
  unfold clearWalletReadinessWatcher
  rcases h : s.timeoutId with - | t <;> simp [h]

theorem clearWatcher_resolve (s : CoordState) :
    (clearWalletReadinessWatcher s).walletReadyResolve = none := by
  unfold clearWalletReadinessWatcher
  rcases h : s.timeoutId with - | t <;> simp [h]

theorem clearWatcher_timeoutId (s : CoordState) :
    (clearWalletReadinessWatcher s).timeoutId = none := by
  unfold clearWalletReadinessWatcher
  rcases h : s.timeoutId with - | t <;> simp [h]

theorem clearWatcher_pending_subset (s : CoordState) (u : Nat)
    (hu : u ∈ (clearWalletReadinessWatcher s).pendingTimers) : u ∈ s.pendingTimers := by
  unfold clearWalletReadinessWatcher at hu
  rcases h : s.timeoutId with - | t <;> rw [h] at hu <;> simp at hu
  · exact hu
  · exact List.mem_of_mem_erase hu

theorem initAfterAwait_nextId (wallets : List Wallet) (outcome : DelegateOutcome)
    (s : CoordState) : (initAfterAwait wallets outcome s).2.nextId = s.nextId := by
  unfold initAfterAwait initTryBlock
  rcases h : wallets.find? initWalletPredicate with - | wl <;> rcases outcome <;>
    simp [h, clearWatcher_nextId]

theorem initAfterAwait_resolvedIds (wallets : List Wallet) (outcome : DelegateOutcome)
    (s : CoordState) : (initAfterAwait wallets outcome s).2.resolvedIds = s.resolvedIds := by
  unfold initAfterAwait initTryBlock
  rcases h : wallets.find? initWalletPredicate with - | wl <;> rcases outcome <;>
    simp [h, clearWatcher_resolvedIds]

theorem initAfterAwait_rejectedIds (wallets : List Wallet) (outcome : DelegateOutcome)
    (s : CoordState) : (initAfterAwait wallets outcome s).2.rejectedIds = s.rejectedIds := by
  unfold initAfterAwait initTryBlock
  rcases h : wallets.find? initWalletPredicate with - | wl <;> rcases outcome <;>
    simp [h, clearWatcher_rejectedIds]

theorem initAfterAwait_waiters (wallets : List Wallet) (outcome : DelegateOutcome)
    (s : CoordState) : (initAfterAwait wallets outcome s).2.waiters = s.waiters := by
  unfold initAfterAwait initTryBlock
  rcases h : wallets.find? initWalletPredicate with - | wl <;> rcases outcome <;>
    simp [h, clearWatcher_waiters]

theorem initAfterAwait_promise_cases (wallets : List Wallet) (outcome : DelegateOutcome)
    (s : CoordState) :
    (initAfterAwait wallets outcome s).2.walletReadyPromise = none ∨
      (initAfterAwait wallets outcome s).2.walletReadyPromise = s.walletReadyPromise := by
  unfold initAfterAwait initTryBlock
  rcases h : wallets.find? initWalletPredicate with - | wl <;> rcases outcome <;>
    simp [h, clearWatcher_promise]

theorem initAfterAwait_resolve_cases (wallets : List Wallet) (outcome : DelegateOutcome)
    (s : CoordState) :
    (initAfterAwait wallets outcome s).2.walletReadyResolve = none ∨
      (initAfterAwait wallets outcome s).2.walletReadyResolve = s.walletReadyResolve := by
  unfold initAfterAwait initTryBlock
  rcases h : wallets.find? initWalletPredicate with - | wl <;> rcases outcome <;>
    simp [h, clearWatcher_resolve]

theorem initAfterAwait_pending_subset (wallets : List Wallet) (outcome : DelegateOutcome)
    (s : CoordState) (u : Nat)
    (hu : u ∈ (initAfterAwait wallets outcome s).2.pendingTimers) :
    u ∈ s.pendingTimers := by
  unfold initAfterAwait initTryBlock at hu
  rcases h : wallets.find? initWalletPredicate with - | wl <;> rw [h] at hu <;>
    rcases outcome <;> simp at hu
  any_goals exact hu
  simpa using clearWatcher_pending_subset _ u hu

theorem initAfterAwait_timeoutId_cases (wallets : List Wallet) (outcome : DelegateOutcome)
    (s : CoordState) :
    (initAfterAwait wallets outcome s).2.timeoutId = none ∨
      (initAfterAwait wallets outcome s).2.timeoutId = s.timeoutId := by
  unfold initAfterAwait initTryBlock
  rcases h : wallets.find? initWalletPredicate with - | wl <;> rcases outcome <;>
    simp [h, clearWatcher_timeoutId]

theorem initAfterAwait_free (wallets : List Wallet) (outcome : DelegateOutcome)
    (s : CoordState) (h : WatcherFree s) :
    WatcherFree (initAfterAwait wallets outcome s).2 := by
  obtain ⟨h1, h2, h3, h4⟩ := h
  refine ⟨?_, ?_, ?_, ?_⟩
  · rcases initAfterAwait_promise_cases wallets outcome s with hc | hc
    · exact hc
    · rw [hc, h1]
  · rcases initAfterAwait_resolve_cases wallets outcome s with hc | hc
    · exact hc
    · rw [hc, h2]
  · rcases initAfterAwait_timeoutId_cases wallets outcome s with hc | hc
    · exact hc
    · rw [hc, h3]
  · refine List.eq_nil_iff_forall_not_mem.mpr fun u hu => ?_
    have hmem := initAfterAwait_pending_subset wallets outcome s u hu
    rw [h4] at hmem
    cases hmem

theorem runWaiters_nextId (n : Nat) (wallets : List Wallet) (outcome : DelegateOutcome)
    (s : CoordState) : (runWaiters n wallets outcome s).nextId = s.nextId := by
  induction n generalizing s with
  | zero => rfl
  | succ n ih => rw [runWaiters, ih, initAfterAwait_nextId]

theorem runWaiters_resolvedIds (n : Nat) (wallets : List Wallet) (outcome : DelegateOutcome)
    (s : CoordState) : (runWaiters n wallets outcome s).resolvedIds = s.resolvedIds := by
  induction n generalizing s with
  | zero => rfl
  | succ n ih => rw [runWaiters, ih, initAfterAwait_resolvedIds]

theorem runWaiters_rejectedIds (n : Nat) (wallets : List Wallet) (outcome : DelegateOutcome)
    (s : CoordState) : (runWaiters n wallets outcome s).rejectedIds = s.rejectedIds := by
  induction n generalizing s with
  | zero => rfl
  | succ n ih => rw [runWaiters, ih, initAfterAwait_rejectedIds]

theorem runWaiters_waiters (n : Nat) (wallets : List Wallet) (outcome : DelegateOutcome)
    (s : CoordState) : (runWaiters n wallets outcome s).waiters = s.waiters := by
  induction n generalizing s with
  | zero => rfl
  | succ n ih => rw [runWaiters, ih, initAfterAwait_waiters]

theorem runWaiters_free (n : Nat) (wallets : List Wallet) (outcome : DelegateOutcome)
    (s : CoordState) (h : WatcherFree s) :
    WatcherFree (runWaiters n wallets outcome s) := by
  induction n generalizing s with
  | zero => exact h
  | succ n ih => rw [runWaiters]; exact ih _ (initAfterAwait_free wallets outcome s h)

/-! ### Promise settling -/

theorem resolvePromise_eq (s : CoordState) (w : Nat)
    (h1 : w ∉ s.resolvedIds) (h2 : w ∉ s.rejectedIds) :
    resolvePromise s w = { s with resolvedIds := w :: s.resolvedIds } := by
  unfold resolvePromise
  rw [if_neg]
  rintro (hc | hc)
  · exact h1 hc
  · exact h2 hc

theorem rejectPromise_eq (s : CoordState) (w : Nat)
    (h1 : w ∉ s.resolvedIds) (h2 : w ∉ s.rejectedIds) :
    rejectPromise s w = { s with rejectedIds := w :: s.rejectedIds } := by
  unfold rejectPromise
  rw [if_neg]
  rintro (hc | hc)
  · exact h1 hc
  · exact h2 hc

theorem clearWatcher_eq_of_some_empty (s : CoordState) (t : Nat)
    (ht : s.timeoutId = some t) (hp : s.pendingTimers = []) :
    clearWalletReadinessWatcher s =
      { s with walletReadyPromise := none, walletReadyResolve := none,
               timeoutId := none, pendingTimers := [] } := by
  obtain ⟨c, ad, il, er, st, pr, rs, ti, pt, rv, rj, wa, ni, dc⟩ := s
  simp only at ht hp
  subst ht hp
  rfl

theorem resolveAndResume_eq (s : CoordState) (w : Nat) (wallets : List Wallet)
    (o : DelegateOutcome) (hact : WatcherActive s w) :
    resolveAndResume s w wallets o =
      runWaiters ((s.waiters.filter (fun v => v == w)).length) wallets o
        { s with resolvedIds := w :: s.resolvedIds,
                 walletReadyPromise := none,
                 walletReadyResolve := none,
                 timeoutId := none,
                 pendingTimers := [],
                 waiters := s.waiters.filter (fun v => v != w) } := by
  obtain ⟨h1, h2, h3, h4, -, h6, h7⟩ := hact
  obtain ⟨c, ad, il, er, st, pr, rs, ti, pt, rv, rj, wa, ni, dc⟩ := s
  simp only at h1 h2 h3 h4 h6 h7
  subst h1 h2 h3 h4
  simp [resolveAndResume, resolvePromise, clearWalletReadinessWatcher, h6, h7]

theorem fireTimeoutCallback_eq (s : CoordState) (t : Nat)
    (h1 : t ∉ s.resolvedIds) (h2 : t ∉ s.rejectedIds) (h3 : s.timeoutId = some t) :
    fireTimeoutCallback s t =
      { s with smartAccountStatus := SmartAccountStatus.error,
               error := some walletCreationTimeoutMessage,
               rejectedIds := t :: s.rejectedIds,
               walletReadyPromise := none,
               walletReadyResolve := none,
               timeoutId := none,
               pendingTimers := s.pendingTimers.erase t,
               waiters := s.waiters.filter (fun v => v != t) } := by
  obtain ⟨c, ad, il, er, st, pr, rs, ti, pt, rv, rj, wa, ni, dc⟩ := s
  simp only at h1 h2 h3
  subst h3
  simp [fireTimeoutCallback, rejectPromise, clearWalletReadinessWatcher, h1, h2]

/-! ### Preservation of the invariant -/

theorem WF_of_free (s : CoordState) (hfree : WatcherFree s) (hs : SettledBelow s) : WF s :=
  ⟨Or.inl hfree, hs, fun hc => absurd hfree.2.2.2 hc⟩

theorem WF_clearWatcher (s : CoordState) (h : WF s) :
    WF (clearWalletReadinessWatcher s) := by
  rw [clearWatcher_of_WF s h]
  exact WF_of_free _ ⟨rfl, rfl, rfl, rfl⟩ h.2.1

theorem WF_createWatcher (s : CoordState) (h : WF s) :
    WF (createWalletReadinessWatcher s) := by
  rw [createWatcher_of_WF s h]
  refine ⟨Or.inr ⟨s.nextId, rfl, rfl, rfl, rfl, Nat.lt_succ_self _, ?_, ?_⟩,
    ⟨?_, ?_⟩, fun _ => rfl⟩
  · intro hc
    exact absurd (h.2.1.1 _ hc) (Nat.lt_irrefl _)
  · intro hc
    exact absurd (h.2.1.2 _ hc) (Nat.lt_irrefl _)
  · intro u hu
    exact Nat.lt_succ_of_lt (h.2.1.1 u hu)
  · intro u hu
    exact Nat.lt_succ_of_lt (h.2.1.2 u hu)

theorem WF_resolveAndResume (s : CoordState) (w : Nat) (wallets : List Wallet)
    (o : DelegateOutcome) (h : WF s) (hact : WatcherActive s w) :
    WF (resolveAndResume s w wallets o) := by
  rw [resolveAndResume_eq s w wallets o hact]
  refine WF_of_free _ (runWaiters_free _ _ _ _ ⟨rfl, rfl, rfl, rfl⟩) ⟨?_, ?_⟩
  · intro u hu
    rw [runWaiters_resolvedIds] at hu
    rw [runWaiters_nextId]
    simp only [List.mem_cons] at hu
    rcases hu with rfl | hu
    · exact hact.2.2.2.2.1
    · exact h.2.1.1 u hu
  · intro u hu
    rw [runWaiters_rejectedIds] at hu
    rw [runWaiters_nextId]
    exact h.2.1.2 u hu

theorem WF_initAfterAwait_of_free (wallets : List Wallet) (o : DelegateOutcome)
    (s : CoordState) (hfree : WatcherFree s) (hs : SettledBelow s) :
    WF (initAfterAwait wallets o s).2 := by
  refine WF_of_free _ (initAfterAwait_free wallets o s hfree) ⟨?_, ?_⟩
  · intro u hu
    rw [initAfterAwait_resolvedIds] at hu
    rw [initAfterAwait_nextId]
    exact hs.1 u hu
  · intro u hu
    rw [initAfterAwait_rejectedIds] at hu
    rw [initAfterAwait_nextId]
    exact hs.2 u hu

theorem WF_stepInitCall (a u : Bool) (ws : List Wallet) (o : DelegateOutcome)
    (s : CoordState) (h : WF s) : WF (stepInitCall a u ws o s) := by
  unfold stepInitCall
  split
  · exact h
  split
  · exact h
  rcases hp : s.walletReadyPromise with - | w
  · simp only [hp]
    rcases h.1 with hfree | ⟨w, hact⟩
    · exact WF_initAfterAwait_of_free ws o s hfree h.2.1
    · rw [hact.1] at hp; cases hp
  · simp only [hp]
    refine ⟨?_, h.2.1, fun _ => rfl⟩
    rcases h.1 with hfree | ⟨v, hact⟩
    · rw [hfree.1] at hp; cases hp
    · have hv : v = w := by rw [hact.1] at hp; injection hp
      subst hv
      exact Or.inr ⟨v, rfl, hact.2.1, hact.2.2.1, hact.2.2.2.1, hact.2.2.2.2.1,
        hact.2.2.2.2.2.1, hact.2.2.2.2.2.2⟩

theorem WF_stepAuthEffect (r a : Bool) (ws : List Wallet) (o : DelegateOutcome)
    (s : CoordState) (h : WF s) : WF (stepAuthEffect r a ws o s) := by
  unfold stepAuthEffect
  split
  · rw [clearWatcher_of_WF s h]
    exact WF_of_free _ ⟨rfl, rfl, rfl, rfl⟩ h.2.1
  split
  · rcases hr : s.walletReadyResolve with - | w
    · simp only [hr]
      exact WF_clearWatcher s h
    · simp only [hr]
      rcases h.1 with hfree | ⟨v, hact⟩
      · rw [hfree.2.1] at hr; cases hr
      · have hv : v = w := by rw [hact.2.1] at hr; injection hr
        subst hv
        exact WF_resolveAndResume s v ws o h hact
  · rcases hp : s.walletReadyPromise with - | w
    · simp only [hp]
      exact WF_createWatcher s h
    · simp only [hp]
      exact h

theorem WF_invokeResolverRef (s : CoordState) (ws : List Wallet) (o : DelegateOutcome)
    (h : WF s) : WF (invokeResolverRef s ws o) := by
  unfold invokeResolverRef
  rcases hr : s.walletReadyResolve with - | w
  · simp only [hr]
    exact h
  · simp only [hr]
    rcases h.1 with hfree | ⟨v, hact⟩
    · rw [hfree.2.1] at hr; cases hr
    · have hv : v = w := by rw [hact.2.1] at hr; injection hr
      subst hv
      exact WF_resolveAndResume s v ws o h hact

theorem WF_retryWalletCreation (a u : Bool) (ws : List Wallet) (o : DelegateOutcome)
    (s : CoordState) (h : WF s) : WF (retryWalletCreation a u ws o s) := by
  have h1 : WF { s with error := none } := ⟨h.1, h.2.1, h.2.2⟩
  unfold retryWalletCreation
  by_cases hn : ws.any retryWalletPredicate = true
  · simp only [hn, if_true]
    exact WF_stepInitCall a u ws o _
      (WF_clearWatcher _ (WF_invokeResolverRef _ ws o (WF_clearWatcher _ h1)))
  · simp only [hn, if_false]
    exact WF_stepInitCall a u ws o _ (WF_createWatcher _ (WF_clearWatcher _ h1))

theorem WF_stepFire (s : CoordState) (h : WF s) : WF (stepFire s) := by
  unfold stepFire
  rcases hp : s.pendingTimers with - | ⟨t, rest⟩
  · simp only [hp]
    exact h
  · simp only [hp]
    rcases h.1 with hfree | ⟨w, hact⟩
    · rw [hfree.2.2.2] at hp; cases hp
    · have hw : w = t ∧ rest = [] := by
        rw [hact.2.2.2.1] at hp
        injection hp with e1 e2
        exact ⟨e1, e2.symm⟩
      obtain ⟨rfl, rfl⟩ := hw
      rw [fireTimeoutCallback_eq]
      · refine WF_of_free _ ⟨rfl, rfl, rfl, ?_⟩ ⟨?_, ?_⟩
        · simp
        · intro x hx
          exact h.2.1.1 x hx
        · intro x hx
          simp only [List.mem_cons] at hx
          rcases hx with rfl | hx
          · exact hact.2.2.2.2.1
          · exact h.2.1.2 x hx
      · exact hact.2.2.2.2.2.1
      · exact hact.2.2.2.2.2.2
      · exact hact.2.2.1

theorem WF_step (s : CoordState) (e : Event) (h : WF s) : WF (step s e) := by
  cases e with
  | authEffect r a ws o => exact WF_stepAuthEffect r a ws o s h
  | effectCleanup => exact WF_clearWatcher s h
  | retryEv a u ws o => exact WF_retryWalletCreation a u ws o s h
  | initCall a u ws o => exact WF_stepInitCall a u ws o s h
  | fireTimeout => exact WF_stepFire s h

theorem WF_run (s : CoordState) (es : List Event) (h : WF s) : WF (run s es) := by
  induction es generalizing s with
  | nil => exact h
  | cons e es ih => exact ih _ (WF_step s e h)

/-! ### Small frame lemmas for promise settling -/

theorem resolvePromise_pending (s : CoordState) (w : Nat) :
    (resolvePromise s w).pendingTimers = s.pendingTimers := by
  unfold resolvePromise; split <;> rfl

theorem resolvePromise_nextId (s : CoordState) (w : Nat) :
    (resolvePromise s w).nextId = s.nextId := by
  unfold resolvePromise; split <;> rfl

theorem resolvePromise_waiters (s : CoordState) (w : Nat) :
    (resolvePromise s w).waiters = s.waiters := by
  unfold resolvePromise; split <;> rfl

theorem resolvePromise_rejectedIds (s : CoordState) (w : Nat) :
    (resolvePromise s w).rejectedIds = s.rejectedIds := by
  unfold resolvePromise; split <;> rfl

theorem resolvePromise_promise (s : CoordState) (w : Nat) :
    (resolvePromise s w).walletReadyPromise = s.walletReadyPromise := by
  unfold resolvePromise; split <;> rfl

theorem resolvePromise_resolve (s : CoordState) (w : Nat) :
    (resolvePromise s w).walletReadyResolve = s.walletReadyResolve := by
  unfold resolvePromise; split <;> rfl

theorem resolvePromise_resolved_mem (s : CoordState) (w u : Nat)
    (hu : u ∈ (resolvePromise s w).resolvedIds) : u = w ∨ u ∈ s.resolvedIds := by
  unfold resolvePromise at hu
  split at hu
  · exact Or.inr hu
  · rcases List.mem_cons.mp hu with e | hm
    · exact Or.inl e
    · exact Or.inr hm

theorem rejectPromise_pending (s : CoordState) (w : Nat) :
    (rejectPromise s w).pendingTimers = s.pendingTimers := by
  unfold rejectPromise; split <;> rfl

theorem rejectPromise_nextId (s : CoordState) (w : Nat) :
    (rejectPromise s w).nextId = s.nextId := by
  unfold rejectPromise; split <;> rfl

theorem rejectPromise_waiters (s : CoordState) (w : Nat) :
    (rejectPromise s w).waiters = s.waiters := by
  unfold rejectPromise; split <;> rfl

theorem rejectPromise_resolvedIds (s : CoordState) (w : Nat) :
    (rejectPromise s w).resolvedIds = s.resolvedIds := by
  unfold rejectPromise; split <;> rfl

theorem rejectPromise_promise (s : CoordState) (w : Nat) :
    (rejectPromise s w).walletReadyPromise = s.walletReadyPromise := by
  unfold rejectPromise; split <;> rfl

theorem rejectPromise_resolve (s : CoordState) (w : Nat) :
    (rejectPromise s w).walletReadyResolve = s.walletReadyResolve := by
  unfold rejectPromise; split <;> rfl

theorem rejectPromise_rejected_mem (s : CoordState) (w u : Nat)
    (hu : u ∈ (rejectPromise s w).rejectedIds) : u = w ∨ u ∈ s.rejectedIds := by
  unfold rejectPromise at hu
  split at hu
  · exact Or.inr hu
  · rcases List.mem_cons.mp hu with e | hm
    · exact Or.inl e
    · exact Or.inr hm

theorem runWaiters_pending_subset (n : Nat) (wallets : List Wallet)
    (outcome : DelegateOutcome) (s : CoordState) (u : Nat)
    (hu : u ∈ (runWaiters n wallets outcome s).pendingTimers) : u ∈ s.pendingTimers := by
  induction n generalizing s with
  | zero => exact hu
  | succ n ih =>
      rw [runWaiters] at hu
      exact initAfterAwait_pending_subset wallets outcome s u (ih _ hu)

/-! ### A dropped watcher promise can never be settled or resumed -/

/-- A suspended `initSmartAccount` call awaiting the watcher promise `v` that
has been superseded: `v` is unsettled, no ref points to it any more and its
timer is gone, so nothing can ever settle its promise or resume the call. -/
def Stuck (v : Nat) (s : CoordState) : Prop :=
  v ∈ s.waiters ∧ v < s.nextId ∧ v ∉ s.resolvedIds ∧ v ∉ s.rejectedIds ∧
    s.walletReadyPromise ≠ some v ∧ s.walletReadyResolve ≠ some v ∧
    v ∉ s.pendingTimers

theorem Stuck_clearWatcher (v : Nat) (s : CoordState) (h : Stuck v s) :
    Stuck v (clearWalletReadinessWatcher s) := by
  obtain ⟨w1, w2, w3, w4, w5, w6, w7⟩ := h
  refine ⟨?_, ?_, ?_, ?_, ?_, ?_, ?_⟩
  · rw [clearWatcher_waiters]; exact w1
  · rw [clearWatcher_nextId]; exact w2
  · rw [clearWatcher_resolvedIds]; exact w3
  · rw [clearWatcher_rejectedIds]; exact w4
  · rw [clearWatcher_promise]; intro hc; cases hc
  · rw [clearWatcher_resolve]; intro hc; cases hc
  · intro hc; exact w7 (clearWatcher_pending_subset s v hc)

theorem Stuck_createWatcher (v : Nat) (s : CoordState) (h : Stuck v s) :
    Stuck v (createWalletReadinessWatcher s) := by
  obtain ⟨c1, c2, c3, c4, c5, c6, c7⟩ := Stuck_clearWatcher v s h
  unfold createWalletReadinessWatcher
  refine ⟨c1, Nat.lt_succ_of_lt c2, c3, c4, ?_, ?_, ?_⟩
  · intro hc
    injection hc with e
    exact Nat.lt_irrefl v (e ▸ c2)
  · intro hc
    injection hc with e
    exact Nat.lt_irrefl v (e ▸ c2)
  · intro hc
    rcases List.mem_cons.mp hc with e | hm
    · exact Nat.lt_irrefl v (e ▸ c2)
    · exact c7 hm

theorem Stuck_initAfterAwait (v : Nat) (ws : List Wallet) (o : DelegateOutcome)
    (s : CoordState) (h : Stuck v s) : Stuck v (initAfterAwait ws o s).2 := by
  obtain ⟨w1, w2, w3, w4, w5, w6, w7⟩ := h
  refine ⟨?_, ?_, ?_, ?_, ?_, ?_, ?_⟩
  · rw [initAfterAwait_waiters]; exact w1
  · rw [initAfterAwait_nextId]; exact w2
  · rw [initAfterAwait_resolvedIds]; exact w3
  · rw [initAfterAwait_rejectedIds]; exact w4
  · rcases initAfterAwait_promise_cases ws o s with hc | hc
    · rw [hc]; intro e; cases e
    · rw [hc]; exact w5
  · rcases initAfterAwait_resolve_cases ws o s with hc | hc
    · rw [hc]; intro e; cases e
    · rw [hc]; exact w6
  · intro hc; exact w7 (initAfterAwait_pending_subset ws o s v hc)

theorem Stuck_runWaiters (v n : Nat) (ws : List Wallet) (o : DelegateOutcome)
    (s : CoordState) (h : Stuck v s) : Stuck v (runWaiters n ws o s) := by
  induction n generalizing s with
  | zero => exact h
  | succ n ih => rw [runWaiters]; exact ih _ (Stuck_initAfterAwait v ws o s h)

theorem Stuck_resolvePromise (v w : Nat) (s : CoordState) (h : Stuck v s)
    (hne : w ≠ v) : Stuck v (resolvePromise s w) := by
  obtain ⟨w1, w2, w3, w4, w5, w6, w7⟩ := h
  refine ⟨?_, ?_, ?_, ?_, ?_, ?_, ?_⟩
  · rw [resolvePromise_waiters]; exact w1
  · rw [resolvePromise_nextId]; exact w2
  · intro hc
    rcases resolvePromise_resolved_mem s w v hc with e | hm
    · exact hne e.symm
    · exact w3 hm
  · rw [resolvePromise_rejectedIds]; exact w4
  · rw [resolvePromise_promise]; exact w5
  · rw [resolvePromise_resolve]; exact w6
  · rw [resolvePromise_pending]; exact w7

theorem Stuck_resolveAndResume (v w : Nat) (s : CoordState) (ws : List Wallet)
    (o : DelegateOutcome) (h : Stuck v s) (hne : w ≠ v) :
    Stuck v (resolveAndResume s w ws o) := by
  have h1 := Stuck_clearWatcher v _ (Stuck_resolvePromise v w s h hne)
  obtain ⟨c1, c2, c3, c4, c5, c6, c7⟩ := h1
  have h2 : Stuck v
      { clearWalletReadinessWatcher (resolvePromise s w) with
        waiters := (clearWalletReadinessWatcher (resolvePromise s w)).waiters.filter
          (fun x => x != w) } := by
    refine ⟨?_, c2, c3, c4, c5, c6, c7⟩
    exact List.mem_filter.mpr ⟨c1, by simp [hne.symm]⟩
  exact Stuck_runWaiters v _ ws o _ h2

theorem Stuck_invokeResolverRef (v : Nat) (s : CoordState) (ws : List Wallet)
    (o : DelegateOutcome) (h : Stuck v s) : Stuck v (invokeResolverRef s ws o) := by
  unfold invokeResolverRef
  rcases hr : s.walletReadyResolve with - | w
  · simp only [hr]; exact h
  · simp only [hr]
    have hne : w ≠ v := by
      intro e
      exact h.2.2.2.2.2.1 (e ▸ hr)
    exact Stuck_resolveAndResume v w s ws o h hne

theorem Stuck_fireTimeoutCallback (v t : Nat) (s : CoordState) (h : Stuck v s)
    (hne : t ≠ v) : Stuck v (fireTimeoutCallback s t) := by
  have h1 : Stuck v { s with smartAccountStatus := SmartAccountStatus.error,
                             error := some walletCreationTimeoutMessage } :=
    ⟨h.1, h.2.1, h.2.2.1, h.2.2.2.1, h.2.2.2.2.1, h.2.2.2.2.2.1, h.2.2.2.2.2.2⟩
  have h2 : Stuck v (rejectPromise { s with
      smartAccountStatus := SmartAccountStatus.error,
      error := some walletCreationTimeoutMessage } t) := by
    obtain ⟨w1, w2, w3, w4, w5, w6, w7⟩ := h1
    refine ⟨?_, ?_, ?_, ?_, ?_, ?_, ?_⟩
    · rw [rejectPromise_waiters]; exact w1
    · rw [rejectPromise_nextId]; exact w2
    · rw [rejectPromise_resolvedIds]; exact w3
    · intro hc
      rcases rejectPromise_rejected_mem _ t v hc with e | hm
      · exact hne e.symm
      · exact w4 hm
    · rw [rejectPromise_promise]; exact w5
    · rw [rejectPromise_resolve]; exact w6
    · rw [rejectPromise_pending]; exact w7
  obtain ⟨c1, c2, c3, c4, c5, c6, c7⟩ := Stuck_clearWatcher v _ h2
  refine ⟨?_, c2, c3, c4, c5, c6, c7⟩
  exact List.mem_filter.mpr ⟨c1, by simp [hne.symm]⟩

theorem Stuck_stepInitCall (v : Nat) (a u : Bool) (ws : List Wallet)
    (o : DelegateOutcome) (s : CoordState) (h : Stuck v s) :
    Stuck v (stepInitCall a u ws o s) := by
  unfold stepInitCall
  split
  · exact h
  split
  · exact h
  rcases hp : s.walletReadyPromise with - | w
  · simp only [hp]
    exact Stuck_initAfterAwait v ws o s h
  · simp only [hp]
    obtain ⟨w1, w2, w3, w4, w5, w6, w7⟩ := h
    exact ⟨List.mem_cons_of_mem w w1, w2, w3, w4, hp ▸ w5, w6, w7⟩

theorem Stuck_stepAuthEffect (v : Nat) (r a : Bool) (ws : List Wallet)
    (o : DelegateOutcome) (s : CoordState) (h : Stuck v s) :
    Stuck v (stepAuthEffect r a ws o s) := by
  unfold stepAuthEffect
  split
  · obtain ⟨c1, c2, c3, c4, c5, c6, c7⟩ := Stuck_clearWatcher v s h
    exact ⟨c1, c2, c3, c4, c5, c6, c7⟩
  split
  · rcases hr : s.walletReadyResolve with - | w
    · simp only [hr]
      exact Stuck_clearWatcher v s h
    · simp only [hr]
      have hne : w ≠ v := by
        intro e
        exact h.2.2.2.2.2.1 (e ▸ hr)
      exact Stuck_resolveAndResume v w s ws o h hne
  · rcases hp : s.walletReadyPromise with - | w
    · simp only [hp]
      exact Stuck_createWatcher v s h
    · simp only [hp]
      exact h

theorem Stuck_retryWalletCreation (v : Nat) (a u : Bool) (ws : List Wallet)
    (o : DelegateOutcome) (s : CoordState) (h : Stuck v s) :
    Stuck v (retryWalletCreation a u ws o s) := by
  have h1 : Stuck v { s with error := none } :=
    ⟨h.1, h.2.1, h.2.2.1, h.2.2.2.1, h.2.2.2.2.1, h.2.2.2.2.2.1, h.2.2.2.2.2.2⟩
  unfold retryWalletCreation
  by_cases hn : ws.any retryWalletPredicate = true
  · simp only [hn, if_true]
    exact Stuck_stepInitCall v a u ws o _
      (Stuck_clearWatcher v _ (Stuck_invokeResolverRef v _ ws o (Stuck_clearWatcher v _ h1)))
  · simp only [hn, if_false]
    exact Stuck_stepInitCall v a u ws o _
      (Stuck_createWatcher v _ (Stuck_clearWatcher v _ h1))

theorem Stuck_stepFire (v : Nat) (s : CoordState) (h : Stuck v s) :
    Stuck v (stepFire s) := by
  unfold stepFire
  rcases hp : s.pendingTimers with - | ⟨t, rest⟩
  · simp only [hp]; exact h
  · simp only [hp]
    obtain ⟨w1, w2, w3, w4, w5, w6, w7⟩ := h
    rw [hp] at w7
    have hne : t ≠ v := by
      intro e
      exact w7 (e ▸ List.mem_cons_self t rest)
    have hrest : v ∉ rest := fun hc => w7 (List.mem_cons_of_mem t hc)
    exact Stuck_fireTimeoutCallback v t _ ⟨w1, w2, w3, w4, w5, w6, hrest⟩ hne

theorem Stuck_step (v : Nat) (s : CoordState) (e : Event) (h : Stuck v s) :
    Stuck v (step s e) := by
  cases e with
  | authEffect r a ws o => exact Stuck_stepAuthEffect v r a ws o s h
  | effectCleanup => exact Stuck_clearWatcher v s h
  | retryEv a u ws o => exact Stuck_retryWalletCreation v a u ws o s h
  | initCall a u ws o => exact Stuck_stepInitCall v a u ws o s h
  | fireTimeout => exact Stuck_stepFire v s h

theorem Stuck_run (v : Nat) (s : CoordState) (es : List Event) (h : Stuck v s) :
    Stuck v (run s es) := by
  induction es generalizing s with
  | nil => exact h
  | cons e es ih => exact ih _ (Stuck_step v s e h)

/-! ### A fired or cancelled timer never becomes pending again -/

/-- Timer `t` was allocated and is not pending; this is stable, since newly
created timers always use a fresh id. -/
def TimerGone (t : Nat) (s : CoordState) : Prop :=
  t < s.nextId ∧ t ∉ s.pendingTimers

theorem TimerGone_clearWatcher (t : Nat) (s : CoordState) (h : TimerGone t s) :
    TimerGone t (clearWalletReadinessWatcher s) := by
  refine ⟨?_, ?_⟩
  · rw [clearWatcher_nextId]; exact h.1
  · intro hc; exact h.2 (clearWatcher_pending_subset s t hc)

theorem TimerGone_createWatcher (t : Nat) (s : CoordState) (h : TimerGone t s) :
    TimerGone t (createWalletReadinessWatcher s) := by
  obtain ⟨c1, c2⟩ := TimerGone_clearWatcher t s h
  unfold createWalletReadinessWatcher
  refine ⟨Nat.lt_succ_of_lt c1, ?_⟩
  intro hc
  rcases List.mem_cons.mp hc with e | hm
  · exact Nat.lt_irrefl t (e ▸ c1)
  · exact c2 hm

theorem TimerGone_initAfterAwait (t : Nat) (ws : List Wallet) (o : DelegateOutcome)
    (s : CoordState) (h : TimerGone t s) : TimerGone t (initAfterAwait ws o s).2 := by
  refine ⟨?_, ?_⟩
  · rw [initAfterAwait_nextId]; exact h.1
  · intro hc; exact h.2 (initAfterAwait_pending_subset ws o s t hc)

theorem TimerGone_runWaiters (t n : Nat) (ws : List Wallet) (o : DelegateOutcome)
    (s : CoordState) (h : TimerGone t s) : TimerGone t (runWaiters n ws o s) := by
  induction n generalizing s with
  | zero => exact h
  | succ n ih => rw [runWaiters]; exact ih _ (TimerGone_initAfterAwait t ws o s h)

theorem TimerGone_resolveAndResume (t w : Nat) (s : CoordState) (ws : List Wallet)
    (o : DelegateOutcome) (h : TimerGone t s) : TimerGone t (resolveAndResume s w ws o) := by
  have h1 : TimerGone t (resolvePromise s w) := by
    refine ⟨?_, ?_⟩
    · rw [resolvePromise_nextId]; exact h.1
    · rw [resolvePromise_pending]; exact h.2
  obtain ⟨c1, c2⟩ := TimerGone_clearWatcher t _ h1
  exact TimerGone_runWaiters t _ ws o _ ⟨c1, c2⟩

theorem TimerGone_invokeResolverRef (t : Nat) (s : CoordState) (ws : List Wallet)
    (o : DelegateOutcome) (h : TimerGone t s) : TimerGone t (invokeResolverRef s ws o) := by
  unfold invokeResolverRef
  rcases hr : s.walletReadyResolve with - | w
  · simp only [hr]; exact h
  · simp only [hr]
    exact TimerGone_resolveAndResume t w s ws o h

theorem TimerGone_fireTimeoutCallback (t x : Nat) (s : CoordState)
    (h : TimerGone t s) : TimerGone t (fireTimeoutCallback s x) := by
  have h1 : TimerGone t (rejectPromise { s with
      smartAccountStatus := SmartAccountStatus.error,
      error := some walletCreationTimeoutMessage } x) := by
    refine ⟨?_, ?_⟩
    · rw [rejectPromise_nextId]; exact h.1
    · rw [rejectPromise_pending]; exact h.2
  obtain ⟨c1, c2⟩ := TimerGone_clearWatcher t _ h1
  exact ⟨c1, c2⟩

theorem TimerGone_stepInitCall (t : Nat) (a u : Bool) (ws : List Wallet)
    (o : DelegateOutcome) (s : CoordState) (h : TimerGone t s) :
    TimerGone t (stepInitCall a u ws o s) := by
  unfold stepInitCall
  split
  · exact h
  split
  · exact h
  rcases hp : s.walletReadyPromise with - | w
  · simp only [hp]
    exact TimerGone_initAfterAwait t ws o s h
  · simp only [hp]
    exact ⟨h.1, h.2⟩

theorem TimerGone_stepAuthEffect (t : Nat) (r a : Bool) (ws : List Wallet)
    (o : DelegateOutcome) (s : CoordState) (h : TimerGone t s) :
    TimerGone t (stepAuthEffect r a ws o s) := by
  unfold stepAuthEffect
  split
  · obtain ⟨c1, c2⟩ := TimerGone_clearWatcher t s h
    exact ⟨c1, c2⟩
  split
  · rcases hr : s.walletReadyResolve with - | w
    · simp only [hr]
      exact TimerGone_clearWatcher t s h
    · simp only [hr]
      exact TimerGone_resolveAndResume t w s ws o h
  · rcases hp : s.walletReadyPromise with - | w
    · simp only [hp]
      exact TimerGone_createWatcher t s h
    · simp only [hp]
      exact h

theorem TimerGone_retryWalletCreation (t : Nat) (a u : Bool) (ws : List Wallet)
    (o : DelegateOutcome) (s : CoordState) (h : TimerGone t s) :
    TimerGone t (retryWalletCreation a u ws o s) := by
  have h1 : TimerGone t { s with error := none } := ⟨h.1, h.2⟩
  unfold retryWalletCreation
  by_cases hn : ws.any retryWalletPredicate = true
  · simp only [hn, if_true]
    exact TimerGone_stepInitCall t a u ws o _
      (TimerGone_clearWatcher t _
        (TimerGone_invokeResolverRef t _ ws o (TimerGone_clearWatcher t _ h1)))
  · simp only [hn, if_false]
    exact TimerGone_stepInitCall t a u ws o _
      (TimerGone_createWatcher t _ (TimerGone_clearWatcher t _ h1))

theorem TimerGone_stepFire (t : Nat) (s : CoordState) (h : TimerGone t s) :
    TimerGone t (stepFire s) := by
  unfold stepFire
  rcases hp : s.pendingTimers with - | ⟨x, rest⟩
  · simp only [hp]; exact h
  · simp only [hp]
    have h2 : t ∉ x :: rest := hp ▸ h.2
    have hrest : t ∉ rest := fun hc => h2 (List.mem_cons_of_mem x hc)
    exact TimerGone_fireTimeoutCallback t x _ ⟨h.1, hrest⟩

theorem TimerGone_step (t : Nat) (s : CoordState) (e : Event) (h : TimerGone t s) :
    TimerGone t (step s e) := by
  cases e with
  | authEffect r a ws o => exact TimerGone_stepAuthEffect t r a ws o s h
  | effectCleanup => exact TimerGone_clearWatcher t s h
  | retryEv a u ws o => exact TimerGone_retryWalletCreation t a u ws o s h
  | initCall a u ws o => exact TimerGone_stepInitCall t a u ws o s h
  | fireTimeout => exact TimerGone_stepFire t s h

theorem TimerGone_run (t : Nat) (s : CoordState) (es : List Event)
    (h : TimerGone t s) : TimerGone t (run s es) := by
  induction es generalizing s with
  | nil => exact h
  | cons e es ih => exact ih _ (TimerGone_step t s e h)

/-! ### Characterizations of single calls -/

theorem find?_isSome_of_any (l : List Wallet) (p : Wallet → Bool) (h : l.any p = true) :
    ∃ x, l.find? p = some x := by
  induction l with
  | nil => cases h
  | cons a l ih =>
      by_cases hp : p a = true
      · exact ⟨a, by simp [List.find?_cons, hp]⟩
      · simp only [List.any_cons, Bool.or_eq_true] at h
        rcases h with h | h
        · exact absurd h hp
        · obtain ⟨x, hx⟩ := ih h
          exact ⟨x, by simp [List.find?_cons, hp, hx]⟩

theorem invokeResolverRef_of_none (s : CoordState) (ws : List Wallet)
    (o : DelegateOutcome) (hr : s.walletReadyResolve = none) :
    invokeResolverRef s ws o = s := by
  unfold invokeResolverRef
  simp only [hr]

theorem stepInitCall_eq_afterAwait (ws : List Wallet) (o : DelegateOutcome)
    (s : CoordState) (hcl : s.smartAccountClient = none)
    (hpr : s.walletReadyPromise = none) :
    stepInitCall true true ws o s = (initAfterAwait ws o s).2 := by
  obtain ⟨c, ad, il, er, st, pr, rs, ti, pt, rv, rj, wa, ni, dc⟩ := s
  simp only at hcl hpr
  subst hcl hpr
  simp [stepInitCall]

theorem initAfterAwait_ok_eq (ws : List Wallet) (wl : Wallet) (c0 : Nat) (a0 : String)
    (s : CoordState) (hwl : ws.find? initWalletPredicate = some wl)
    (ht : s.timeoutId = none) (hp : s.pendingTimers = []) :
    initAfterAwait ws (DelegateOutcome.ok c0 a0) s =
      (some (c0, a0),
        { s with isLoading := false, error := none,
                 delegateCalls := s.delegateCalls + 1,
                 walletReadyPromise := none, walletReadyResolve := none, timeoutId := none,
                 smartAccountClient := some c0, smartAccountAddress := some a0,
                 smartAccountStatus := SmartAccountStatus.ready }) := by
  obtain ⟨c, ad, il, er, st, pr, rs, ti, pt, rv, rj, wa, ni, dc⟩ := s
  simp only at ht hp
  subst ht hp
  simp [initAfterAwait, initTryBlock, hwl, clearWalletReadinessWatcher]

/-! ## Claim theorems -/

/-- C1: along every sequence of auth/wallet-list transitions, `initSmartAccount`
and `retryWalletCreation` calls, at most one readiness watcher is outstanding:
there is at most one pending timeout timer, and any pending timer is exactly
the one the current watcher's refs (`timeoutIdRef`, `walletReadyPromiseRef`,
`walletReadyResolveRef`) point to, so no stale timer of a superseded watcher
can ever fire. -/
theorem at_most_one_watcher_outstanding (es : List Event) :
    (run initialState es).pendingTimers.length ≤ 1 ∧
    ∀ t ∈ (run initialState es).pendingTimers,
      (run initialState es).timeoutId = some t ∧
      (run initialState es).walletReadyPromise = some t ∧
      (run initialState es).walletReadyResolve = some t := by
  have h := WF_run initialState es WF_initialState
  rcases h.1 with hfree | ⟨w, hact⟩
  · rw [hfree.2.2.2]
    exact ⟨by simp, fun t ht => absurd ht (List.not_mem_nil t)⟩
  · rw [hact.2.2.2.1]
    refine ⟨by simp, ?_⟩
    intro t ht
    rcases List.mem_cons.mp ht with rfl | hm
    · exact ⟨hact.2.2.1, hact.1, hact.2.1⟩
    · exact absurd hm (List.not_mem_nil t)

/-- C2: `WALLET_READY_TIMEOUT` is 25000 ms, and for a watcher whose timer is
still pending when the deadline elapses, the timeout fires exactly once: just
before firing the status is `waiting_for_wallet`; firing rejects the watcher
promise, moves the status to `error` exactly once, stores the user-facing
timeout message, and the same timer can never fire again along any
continuation. -/
theorem timeout_fires_exactly_once (es : List Event) (t : Nat)
    (hp : (run initialState es).pendingTimers = [t]) :
    WALLET_READY_TIMEOUT = 25000 ∧
    (run initialState es).smartAccountStatus = SmartAccountStatus.waiting_for_wallet ∧
    t ∈ (step (run initialState es) Event.fireTimeout).rejectedIds ∧
    (step (run initialState es) Event.fireTimeout).smartAccountStatus =
      SmartAccountStatus.error ∧
    (step (run initialState es) Event.fireTimeout).error =
      some walletCreationTimeoutMessage ∧
    (step (run initialState es) Event.fireTimeout).pendingTimers = [] ∧
    ∀ more : List Event,
      t ∉ (run (step (run initialState es) Event.fireTimeout) more).pendingTimers := by
  have h := WF_run initialState es WF_initialState
  set s := run initialState es with hs
  have hstat : s.smartAccountStatus = SmartAccountStatus.waiting_for_wallet :=
    h.2.2 (by rw [hp]; simp)
  have hact : WatcherActive s t := by
    rcases h.1 with hfree | ⟨w, ha⟩
    · rw [hfree.2.2.2] at hp; cases hp
    · have he : w = t := by
        rw [ha.2.2.2.1] at hp
        injection hp with e1 e2
      subst he
      exact ha
  have heq : step s Event.fireTimeout =
      { s with smartAccountStatus := SmartAccountStatus.error,
               error := some walletCreationTimeoutMessage,
               rejectedIds := t :: s.rejectedIds,
               walletReadyPromise := none, walletReadyResolve := none, timeoutId := none,
               pendingTimers := [],
               waiters := s.waiters.filter (fun v => v != t) } := by
    show stepFire s = _
    unfold stepFire
    simp only [hp]
    rw [fireTimeoutCallback_eq]
    · rfl
    · exact hact.2.2.2.2.2.1
    · exact hact.2.2.2.2.2.2
    · exact hact.2.2.1
  refine ⟨rfl, hstat, ?_, ?_, ?_, ?_, ?_⟩
  · rw [heq]; exact List.mem_cons_self t s.rejectedIds
  · rw [heq]
  · rw [heq]
  · rw [heq]
  · intro more
    have hg : TimerGone t (step s Event.fireTimeout) := by
      rw [heq]
      exact ⟨hact.2.2.2.2.1, fun hc => absurd hc (List.not_mem_nil t)⟩
    exact (TimerGone_run t _ more hg).2

/-- A trace that only creates a watcher: authenticated, no wallets yet. -/
def watcherTrace : List Event :=
  [Event.authEffect true true [] (DelegateOutcome.ok 0 "")]

/-- Witness for C2 at a concrete trace: watcher `0` has its timer pending,
and firing it records the timeout error. -/
theorem timeout_fires_exactly_once_witness :
    (run initialState watcherTrace).pendingTimers = [0] ∧
    (step (run initialState watcherTrace) Event.fireTimeout).error =
      some walletCreationTimeoutMessage ∧
    (step (run initialState watcherTrace) Event.fireTimeout).smartAccountStatus =
      SmartAccountStatus.error :=
  ⟨by decide, (timeout_fires_exactly_once watcherTrace 0 (by decide)).2.2.2.2.1,
    (timeout_fires_exactly_once watcherTrace 0 (by decide)).2.2.2.1⟩

/-- C3: with a cached handle, `initSmartAccount` returns it immediately and
unchanged; calling twice yields the identical handle both times and the
delegate is never invoked. -/
theorem initSmartAccount_cached_idempotent (s : CoordState) (c : Nat) (a : String)
    (wallets : List Wallet) (settle : WatcherSettle) (outcome : DelegateOutcome)
    (hc : s.smartAccountClient = some c) (ha : s.smartAccountAddress = some a) :
    initSmartAccount true true wallets settle outcome s = (some (c, a), s) ∧
    initSmartAccount true true wallets settle outcome
      (initSmartAccount true true wallets settle outcome s).2 = (some (c, a), s) ∧
    (initSmartAccount true true wallets settle outcome s).2.delegateCalls =
      s.delegateCalls := by
  have h1 : initSmartAccount true true wallets settle outcome s = (some (c, a), s) := by
    unfold initSmartAccount
    simp [hc, ha]
  refine ⟨h1, ?_, ?_⟩
  · rw [h1]
    exact h1
  · rw [h1]

/-- A state with a cached smart-account handle. -/
def cachedState : CoordState :=
  { initialState with smartAccountClient := some 7, smartAccountAddress := some "0xabc" }

/-- Witness for C3 at a concrete cached state. -/
theorem initSmartAccount_cached_idempotent_witness :
    initSmartAccount true true [] WatcherSettle.resolves (DelegateOutcome.ok 1 "z")
        cachedState = (some (7, "0xabc"), cachedState) ∧
    (initSmartAccount true true [] WatcherSettle.resolves (DelegateOutcome.ok 1 "z")
        cachedState).2.delegateCalls = cachedState.delegateCalls :=
  ⟨(initSmartAccount_cached_idempotent cachedState 7 "0xabc" [] WatcherSettle.resolves
      (DelegateOutcome.ok 1 "z") rfl rfl).1,
    (initSmartAccount_cached_idempotent cachedState 7 "0xabc" [] WatcherSettle.resolves
      (DelegateOutcome.ok 1 "z") rfl rfl).2.2⟩

/-- C4: every failure of `initSmartAccount` — watcher rejection (timeout),
missing embedded wallet, delegate error — is captured: the call returns null
(no exception escapes; the embedding's `try` layer is fully handled), the
status becomes `error` (with the message stored) for the timeout and delegate
cases, and `waiting_for_wallet` for the missing-wallet case. -/
theorem init_failures_captured (wallets : List Wallet) (outcome : DelegateOutcome)
    (m : String) (w : Nat) (s : CoordState)
    (hnc : s.smartAccountClient = none) :
    (s.walletReadyPromise = some w →
      initSmartAccount true true wallets (WatcherSettle.rejects m) outcome s =
        (none, { s with smartAccountStatus := SmartAccountStatus.error,
                        error := some m })) ∧
    (s.walletReadyPromise = none → wallets.find? initWalletPredicate = none →
      initSmartAccount true true wallets WatcherSettle.resolves outcome s =
        (none, { s with isLoading := false, error := none,
                        smartAccountStatus := SmartAccountStatus.waiting_for_wallet })) ∧
    (s.walletReadyPromise = none →
      ∀ wl, wallets.find? initWalletPredicate = some wl →
      initSmartAccount true true wallets WatcherSettle.resolves (DelegateOutcome.err m) s =
        (none, { s with isLoading := false, error := some m,
                        smartAccountStatus := SmartAccountStatus.error,
                        delegateCalls := s.delegateCalls + 1 })) := by
  obtain ⟨c, ad, il, er, st, pr, rs, ti, pt, rv, rj, wa, ni, dc⟩ := s
  simp only at hnc
  subst hnc
  refine ⟨?_, ?_, ?_⟩
  · intro hpr
    simp only at hpr
    subst hpr
    simp [initSmartAccount]
  · intro hpr hfind
    simp only at hpr
    subst hpr
    simp [initSmartAccount, initAfterAwait, initTryBlock, hfind]
  · intro hpr wl hwl
    simp only at hpr
    subst hpr
    simp [initSmartAccount, initAfterAwait, initTryBlock, hwl]

/-- A state with a pending watcher and no handle. -/
def pendingWatcherState : CoordState :=
  { initialState with walletReadyPromise := some 0, walletReadyResolve := some 0,
                      timeoutId := some 0, pendingTimers := [0], nextId := 1,
                      smartAccountStatus := SmartAccountStatus.waiting_for_wallet }

/-- Witness for C4: a rejected watcher await yields null plus the error
status and message. -/
theorem init_failures_captured_witness :
    initSmartAccount true true [] (WatcherSettle.rejects walletCreationTimeoutMessage)
        (DelegateOutcome.ok 0 "") pendingWatcherState =
      (none, { pendingWatcherState with
                 smartAccountStatus := SmartAccountStatus.error,
                 error := some walletCreationTimeoutMessage }) :=
  (init_failures_captured [] (DelegateOutcome.ok 0 "") walletCreationTimeoutMessage 0
      pendingWatcherState rfl).1 rfl

/-- A trace that initializes a smart-account handle while authenticated. -/
def handleTrace : List Event :=
  [Event.initCall true true [{ walletClientType := "privy" }] (DelegateOutcome.ok 7 "0xabc")]

/-- C5 counterexample: a transition to not-authenticated clears the watcher
and resets status to `idle`, but the cached handle (client and address)
survives, contradicting the claim that it is reset. -/
theorem logout_retains_handle_cex :
    (run initialState handleTrace).smartAccountClient = some 7 ∧
    (run initialState handleTrace).smartAccountAddress = some "0xabc" ∧
    (step (run initialState handleTrace)
        (Event.authEffect true false [] (DelegateOutcome.ok 0 ""))).smartAccountClient =
      some 7 ∧
    (step (run initialState handleTrace)
        (Event.authEffect true false [] (DelegateOutcome.ok 0 ""))).smartAccountAddress =
      some "0xabc" ∧
    (step (run initialState handleTrace)
        (Event.authEffect true false [] (DelegateOutcome.ok 0 ""))).smartAccountStatus =
      SmartAccountStatus.idle := by
  refine ⟨?_, ?_, ?_, ?_, ?_⟩ <;> decide

/-- C5 amended: on loss of readiness or authentication the effect clears the
watcher and resets status to `idle`, but retains every other field — in
particular the cached handle is NOT reset. -/
theorem logout_clears_watcher_keeps_handle (s : CoordState) (ready authenticated : Bool)
    (wallets : List Wallet) (outcome : DelegateOutcome) (h : WF s)
    (hna : ready = false ∨ authenticated = false) :
    stepAuthEffect ready authenticated wallets outcome s =
      { s with walletReadyPromise := none, walletReadyResolve := none, timeoutId := none,
               pendingTimers := [], smartAccountStatus := SmartAccountStatus.idle } := by
  unfold stepAuthEffect
  have hcond : (!ready || !authenticated) = true := by
    rcases hna with rfl | rfl <;> simp
  rw [if_pos hcond, clearWatcher_of_WF s h]

/-- Witness for the amended C5 at a concrete state. -/
theorem logout_clears_watcher_keeps_handle_witness :
    stepAuthEffect true false [] (DelegateOutcome.ok 0 "") cachedState =
      { cachedState with
          walletReadyPromise := none, walletReadyResolve := none, timeoutId := none,
          pendingTimers := [], smartAccountStatus := SmartAccountStatus.idle } :=
  logout_clears_watcher_keeps_handle cachedState true false [] (DelegateOutcome.ok 0 "")
    (by refine ⟨Or.inl ⟨rfl, rfl, rfl, rfl⟩, ⟨?_, ?_⟩, ?_⟩
        · intro u hu; cases hu
        · intro u hu; cases hu
        · intro hc; exact absurd rfl hc)
    (Or.inr rfl)

/-- C6 counterexample: the coordinator's wallet filter rejects a wallet whose
`walletClientType` is the literal string `"embedded"`; the predicate actually
used is `walletClientType == "privy"`. -/
theorem wallet_selection_not_embedded_cex :
    initWalletPredicate { walletClientType := "embedded" } = false ∧
    retryWalletPredicate { walletClientType := "embedded" } = false ∧
    effectWalletPredicate { walletClientType := "embedded" } = false ∧
    ([({ walletClientType := "embedded" } : Wallet)].find? initWalletPredicate) = none ∧
    initWalletPredicate { walletClientType := "privy" } = true := by
  refine ⟨?_, ?_, ?_, ?_, ?_⟩ <;> decide

/-- C6 amended: at all three sites (the `initSmartAccount` lookup, the retry
check, and the passive effect check) the coordinator selects a wallet exactly
when the list contains one with `walletClientType == "privy"`. -/
theorem wallet_selection_uses_privy (wallets : List Wallet) :
    ((wallets.find? initWalletPredicate).isSome ↔
      ∃ w ∈ wallets, w.walletClientType = "privy") ∧
    (wallets.any retryWalletPredicate = true ↔
      ∃ w ∈ wallets, w.walletClientType = "privy") ∧
    (wallets.any effectWalletPredicate = true ↔
      ∃ w ∈ wallets, w.walletClientType = "privy") := by
  refine ⟨?_, ?_, ?_⟩
  · rw [List.find?_isSome]
    simp [initWalletPredicate]
  · simp [List.any_eq_true, retryWalletPredicate]
  · simp [List.any_eq_true, effectWalletPredicate]

/-- C7 counterexample: with an active watcher (resolver set to `0`) and an
embedded wallet present, `retryWalletCreation` never resolves the watcher
promise — `clearWalletReadinessWatcher` runs first and drops the resolver, so
the later `walletReadyResolveRef.current?.()` is a no-op. -/
theorem retry_does_not_resolve_watcher_cex :
    (run initialState watcherTrace).walletReadyResolve = some 0 ∧
    0 ∉ (step (run initialState watcherTrace)
          (Event.retryEv true true [{ walletClientType := "privy" }]
            (DelegateOutcome.ok 5 "0xa"))).resolvedIds := by
  refine ⟨?_, ?_⟩ <;> decide

theorem retry_with_wallet_eq (wallets : List Wallet) (c0 : Nat) (a0 : String)
    (wl : Wallet) (s : CoordState) (w : Nat)
    (hprivy : wallets.any retryWalletPredicate = true)
    (hwl : wallets.find? initWalletPredicate = some wl)
    (hnc : s.smartAccountClient = none)
    (hti : s.timeoutId = some w) (hpt : s.pendingTimers = [w]) :
    retryWalletCreation true true wallets (DelegateOutcome.ok c0 a0) s =
      { s with error := none, walletReadyPromise := none, walletReadyResolve := none,
               timeoutId := none, pendingTimers := [], isLoading := false,
               delegateCalls := s.delegateCalls + 1,
               smartAccountClient := some c0, smartAccountAddress := some a0,
               smartAccountStatus := SmartAccountStatus.ready } := by
  obtain ⟨c, ad, il, er, st, pr, rs, ti, pt, rv, rj, wa, ni, dc⟩ := s
  simp only at hnc hti hpt
  subst hnc hti hpt
  simp [retryWalletCreation, clearWalletReadinessWatcher, invokeResolverRef, stepInitCall,
    initAfterAwait, initTryBlock, hprivy, hwl]

/-- C7 amended: `retryWalletCreation` clears the error state and the watcher;
with an embedded wallet present the old watcher's promise is left unresolved
(the resolver reference was already cleared), and the retried
`initSmartAccount` proceeds straight through initialization without suspending
on any watcher: no waiter is added, no new watcher is created, and a
successful delegate outcome reaches status `ready`. -/
theorem retry_with_wallet_present (s : CoordState) (w c0 : Nat) (a0 : String)
    (wallets : List Wallet) (h : WF s)
    (hw : s.walletReadyResolve = some w)
    (hprivy : wallets.any retryWalletPredicate = true)
    (hnc : s.smartAccountClient = none) :
    w ∉ (retryWalletCreation true true wallets (DelegateOutcome.ok c0 a0) s).resolvedIds ∧
    (retryWalletCreation true true wallets (DelegateOutcome.ok c0 a0) s).waiters =
      s.waiters ∧
    (retryWalletCreation true true wallets (DelegateOutcome.ok c0 a0) s).walletReadyPromise =
      none ∧
    (retryWalletCreation true true wallets (DelegateOutcome.ok c0 a0) s).smartAccountStatus =
      SmartAccountStatus.ready ∧
    (retryWalletCreation true true wallets (DelegateOutcome.ok c0 a0) s).smartAccountClient =
      some c0 ∧
    (retryWalletCreation true true wallets (DelegateOutcome.ok c0 a0) s).error = none := by
  have hWFe : WF { s with error := none } := ⟨h.1, h.2.1, h.2.2⟩
  have hact : WatcherActive s w := by
    rcases h.1 with hfree | ⟨v, ha⟩
    · rw [hfree.2.1] at hw; cases hw
    · have he : v = w := by
        rw [ha.2.1] at hw
        injection hw
      subst he
      exact ha
  obtain ⟨wl, hwl⟩ := find?_isSome_of_any wallets initWalletPredicate hprivy
  rw [retry_with_wallet_eq wallets c0 a0 wl s w hprivy hwl hnc hact.2.2.1 hact.2.2.2.1]
  exact ⟨hact.2.2.2.2.2.1, rfl, rfl, rfl, rfl, rfl⟩

/-- Witness for the amended C7 at a concrete state with an active watcher. -/
theorem retry_with_wallet_present_witness :
    pendingWatcherState.walletReadyResolve = some 0 ∧
    (retryWalletCreation true true [{ walletClientType := "privy" }]
        (DelegateOutcome.ok 5 "0xa") pendingWatcherState).smartAccountStatus =
      SmartAccountStatus.ready ∧
    0 ∉ (retryWalletCreation true true [{ walletClientType := "privy" }]
        (DelegateOutcome.ok 5 "0xa") pendingWatcherState).resolvedIds :=
  ⟨rfl,
    (retry_with_wallet_present pendingWatcherState 0 5 "0xa"
      [{ walletClientType := "privy" }] (by
        refine ⟨Or.inr ⟨0, rfl, rfl, rfl, rfl, Nat.zero_lt_one, ?_, ?_⟩, ⟨?_, ?_⟩, ?_⟩
        · intro hc; cases hc
        · intro hc; cases hc
        · intro u hu; cases hu
        · intro u hu; cases hu
        · intro hc; rfl)
      rfl rfl rfl).2.2.2.1,
    (retry_with_wallet_present pendingWatcherState 0 5 "0xa"
      [{ walletClientType := "privy" }] (by
        refine ⟨Or.inr ⟨0, rfl, rfl, rfl, rfl, Nat.zero_lt_one, ?_, ?_⟩, ⟨?_, ?_⟩, ?_⟩
        · intro hc; cases hc
        · intro hc; cases hc
        · intro u hu; cases hu
        · intro u hu; cases hu
        · intro hc; rfl)
      rfl rfl rfl).1⟩

/-- C8 counterexample: calling `initSmartAccount` while not authenticated
returns null and leaves the state entirely unchanged — no `not_authenticated`
error is recorded anywhere, and the null result is the same value the
authenticated wallet-missing path returns, so the caller cannot distinguish
the taxonomy's `not_authenticated` case. -/
theorem unauthenticated_init_silent_cex :
    initSmartAccount false true [] WatcherSettle.resolves (DelegateOutcome.ok 0 "")
        initialState = (none, initialState) ∧
    initialState.error = none ∧
    initialState.smartAccountStatus = SmartAccountStatus.idle ∧
    (initSmartAccount true true [] WatcherSettle.resolves (DelegateOutcome.ok 0 "")
        initialState).1 = none := by
  refine ⟨?_, rfl, rfl, ?_⟩ <;> decide

/-- C8 amended: when not authenticated (or with no user), `initSmartAccount`
returns null immediately with the state unchanged; the failure is observable
only as the null result. -/
theorem init_unauthenticated_returns_null (authenticated hasUser : Bool)
    (wallets : List Wallet) (settle : WatcherSettle) (outcome : DelegateOutcome)
    (s : CoordState) (h : authenticated = false ∨ hasUser = false) :
    initSmartAccount authenticated hasUser wallets settle outcome s = (none, s) := by
  unfold initSmartAccount
  have hcond : (!authenticated || !hasUser) = true := by
    rcases h with rfl | rfl <;> simp
  rw [if_pos hcond]

/-- Witness for the amended C8. -/
theorem init_unauthenticated_returns_null_witness :
    initSmartAccount true false [] WatcherSettle.resolves (DelegateOutcome.ok 0 "")
        cachedState = (none, cachedState) :=
  init_unauthenticated_returns_null true false [] WatcherSettle.resolves
    (DelegateOutcome.ok 0 "") cachedState (Or.inr rfl)

/-- A trace in which a call suspends on watcher `0` and authentication is then
lost, which clears the watcher without settling its promise. -/
def stuckTrace : List Event :=
  [Event.authEffect true true [] (DelegateOutcome.ok 0 ""),
   Event.initCall true true [] (DelegateOutcome.ok 0 ""),
   Event.authEffect true false [] (DelegateOutcome.ok 0 "")]

/-- C9: there is an execution in which an `initSmartAccount` call awaiting the
watcher promise is never resumed: after `clearWalletReadinessWatcher` runs on
loss of authentication, the promise is unsettled (neither resolved nor
rejected) and stays unsettled — and the call stays suspended — under every
possible continuation of the system. -/
theorem suspended_init_never_resumes :
    0 ∈ (run initialState stuckTrace).waiters ∧
    0 ∉ (run initialState stuckTrace).resolvedIds ∧
    0 ∉ (run initialState stuckTrace).rejectedIds ∧
    ∀ more : List Event,
      0 ∈ (run (run initialState stuckTrace) more).waiters ∧
      0 ∉ (run (run initialState stuckTrace) more).resolvedIds ∧
      0 ∉ (run (run initialState stuckTrace) more).rejectedIds := by
  have hstuck : Stuck 0 (run initialState stuckTrace) := by
    refine ⟨?_, ?_, ?_, ?_, ?_, ?_, ?_⟩ <;> decide
  refine ⟨hstuck.1, hstuck.2.2.1, hstuck.2.2.2.1, fun more => ?_⟩
  have h2 := Stuck_run 0 _ more hstuck
  exact ⟨h2.1, h2.2.2.1, h2.2.2.2.1⟩

end SmartAccountContext

namespace GaslessDeployment

/-!
Embedding of `generateCoinSalt` from `src/client/src/lib/gasless-deployment.ts`
(lines 64-70).  JavaScript strings are lists of UTF-16 code units; `Date.now()`
is the parameter `now`.  In `((acc << 5) - acc) + char.charCodeAt(0)` only the
shift coerces its operand and result to 32 bits (`ToInt32`); the subtraction
and addition are exact, since the accumulator stays far below `2^53` for any
realistic input length.
-/

/-- JavaScript `ToInt32`: reduce modulo `2^32` into `[-2^31, 2^31)`. -/
def toInt32 (x : Int) : Int := (x + 2 ^ 31) % 2 ^ 32 - 2 ^ 31

/-- One step of the `reduce` at lines 66-68: `((acc << 5) - acc) + code`. -/
def hashStep (acc : Int) (c : Nat) : Int := toInt32 (toInt32 acc * 32) - acc + c

/-- The string hash of `generateCoinSalt`, folded over the code units of
`creator + name + symbol + metadataUri`. -/
def jsStringHash (codeUnits : List Nat) : Int := codeUnits.foldl hashStep 0

/-- The sixteen lowercase hexadecimal digit characters. -/
def hexDigits : List Char := "0123456789abcdef".toList

/-- `c` is a lowercase hexadecimal digit. -/
def isHexDigit (c : Char) : Bool := hexDigits.contains c

/-- The lowercase hexadecimal digit for `n % 16`-sized values, as produced by
JavaScript `Number.prototype.toString(16)`. -/
def jsDigitChar (n : Nat) : Char :=
  Char.ofNat (if n < 10 then n + 48 else n + 87)

/-- Hex digits of `n`, least significant first; `fuel ≥ n` suffices. -/
def hexRevAux : Nat → Nat → List Char
  | 0, _ => []
  | fuel + 1, n =>
      if n = 0 then [] else jsDigitChar (n % 16) :: hexRevAux fuel (n / 16)

/-- JavaScript `n.toString(16)` for a natural number, as a character list. -/
def jsToHexChars (n : Nat) : List Char :=
  if n = 0 then ['0'] else (hexRevAux n n).reverse

/-- JavaScript `String.prototype.padStart`, on character lists. -/
def padStartList (l : List Char) (targetLength : Nat) (padChar : Char) : List Char :=
  if l.length < targetLength then
    List.replicate (targetLength - l.length) padChar ++ l
  else l

/-- `generateCoinSalt` (lines 64-70): sixteen zero-padded hex digits of the
timestamp, then forty-eight zero-padded hex digits of the absolute value of
the string hash, behind a `0x` prefix. -/
def generateCoinSalt (creator name symbol metadataUri : List Nat) (now : Nat) : String :=
  let timestamp := padStartList (jsToHexChars now) 16 '0'
  let hash := jsStringHash (creator ++ name ++ symbol ++ metadataUri)
  let hashHex := padStartList (jsToHexChars hash.natAbs) 48 '0'
  String.mk ('0' :: 'x' :: (timestamp ++ hashHex))

/-- The UTF-16 code units of the 42-character creator address
`0xababababababababababababababababababababab`-style string `"0x"` followed
by twenty copies of `"ab"`. -/
def cexCreator : List Nat :=
  [48, 120, 97, 98, 97, 98, 97, 98, 97, 98, 97, 98, 97, 98, 97, 98, 97, 98, 97, 98,
   97, 98, 97, 98, 97, 98, 97, 98, 97, 98, 97, 98, 97, 98, 97, 98, 97, 98, 97, 98,
   97, 98]

/-! ### Bounds on the hash and its hexadecimal rendering -/

theorem toInt32_natAbs_le (x : Int) : (toInt32 x).natAbs ≤ 2 ^ 31 := by
  unfold toInt32
  have h1 : (0 : Int) ≤ (x + 2 ^ 31) % 2 ^ 32 :=
    Int.emod_nonneg _ (by norm_num)
  have h2 : (x + 2 ^ 31) % 2 ^ 32 < 2 ^ 32 :=
    Int.emod_lt_of_pos _ (by norm_num)
  omega

theorem hashStep_natAbs_le (acc : Int) (c : Nat) (hc : c < 2 ^ 16) :
    (hashStep acc c).natAbs ≤ acc.natAbs + 2 ^ 32 := by
  unfold hashStep
  have h1 := toInt32_natAbs_le (toInt32 acc * 32)
  omega

theorem foldl_hashStep_natAbs_le (l : List Nat) (acc : Int)
    (hcodes : ∀ c ∈ l, c < 2 ^ 16) :
    (l.foldl hashStep acc).natAbs ≤ acc.natAbs + l.length * 2 ^ 32 := by
  induction l generalizing acc with
  | nil => simp
  | cons c l ih =>
      simp only [List.foldl_cons, List.length_cons]
      have h1 := hashStep_natAbs_le acc c (hcodes c (List.mem_cons_self c l))
      have h2 := ih (hashStep acc c) (fun x hx => hcodes x (List.mem_cons_of_mem c hx))
      have h3 : (l.length + 1) * 2 ^ 32 = l.length * 2 ^ 32 + 2 ^ 32 := by ring
      omega

theorem jsStringHash_natAbs_le (l : List Nat) (hcodes : ∀ c ∈ l, c < 2 ^ 16) :
    (jsStringHash l).natAbs ≤ l.length * 2 ^ 32 := by
  simpa using foldl_hashStep_natAbs_le l 0 hcodes

theorem hexRevAux_length_le (fuel : Nat) :
    ∀ n k, n < 16 ^ k → (hexRevAux fuel n).length ≤ k := by
  induction fuel with
  | zero =>
      intro n k h
      simp [hexRevAux]
  | succ fuel ih =>
      intro n k h
      unfold hexRevAux
      by_cases hn : n = 0
      · simp [hn]
      · rw [if_neg hn]
        rcases k with - | k
        · rw [pow_zero] at h
          omega
        · simp only [List.length_cons]
          have hd : n / 16 < 16 ^ k := by
            apply Nat.div_lt_of_lt_mul
            rw [pow_succ] at h
            exact lt_of_lt_of_eq h (Nat.mul_comm _ _)
          exact Nat.succ_le_succ (ih (n / 16) k hd)

theorem jsToHexChars_length_le (n k : Nat) (hk : 1 ≤ k) (h : n < 16 ^ k) :
    (jsToHexChars n).length ≤ k := by
  unfold jsToHexChars
  by_cases hn : n = 0
  · rw [if_pos hn]
    exact hk
  · rw [if_neg hn, List.length_reverse]
    exact hexRevAux_length_le n n k h

theorem jsDigitChar_mem (m : Nat) (h : m < 16) : jsDigitChar m ∈ hexDigits := by
  interval_cases m <;> decide

theorem hexRevAux_mem (fuel : Nat) :
    ∀ n c, c ∈ hexRevAux fuel n → c ∈ hexDigits := by
  induction fuel with
  | zero =>
      intro n c hc
      simp [hexRevAux] at hc
  | succ fuel ih =>
      intro n c hc
      unfold hexRevAux at hc
      by_cases hn : n = 0
      · rw [if_pos hn] at hc
        cases hc
      · rw [if_neg hn] at hc
        rcases List.mem_cons.mp hc with rfl | hm
        · exact jsDigitChar_mem _ (Nat.mod_lt _ (by norm_num))
        · exact ih _ c hm

theorem jsToHexChars_mem (n : Nat) (c : Char) (hc : c ∈ jsToHexChars n) :
    c ∈ hexDigits := by
  unfold jsToHexChars at hc
  by_cases hn : n = 0
  · rw [if_pos hn] at hc
    rcases List.mem_cons.mp hc with rfl | hm
    · decide
    · cases hm
  · rw [if_neg hn] at hc
    exact hexRevAux_mem n n c (List.mem_reverse.mp hc)

theorem padStartList_length (l : List Char) (t : Nat) (c : Char) (h : l.length ≤ t) :
    (padStartList l t c).length = t := by
  unfold padStartList
  by_cases hlt : l.length < t
  · rw [if_pos hlt]
    simp only [List.length_append, List.length_replicate]
    omega
  · rw [if_neg hlt]
    omega

theorem padStartList_mem (l : List Char) (t : Nat) (c x : Char)
    (hx : x ∈ padStartList l t c) : x = c ∨ x ∈ l := by
  unfold padStartList at hx
  split at hx
  · rcases List.mem_append.mp hx with hm | hm
    · exact Or.inl (List.eq_of_mem_replicate hm)
    · exact Or.inr hm
  · exact Or.inr hx

/-! ### The C10 claim -/

set_option maxRecDepth 4000 in
/-- C10 counterexample: on the single well-formed creator address with code
units `cexCreator` (the string `0xabab...ab`, empty name, symbol and
metadata URI), the string hash is `-11192227492`, whose absolute value is at
least `16 ^ 8` — it does not fit in 32 bits and its hexadecimal rendering has
9 digits, not at most 8. -/
theorem coin_salt_hash_not_32_bit_cex :
    jsStringHash cexCreator = -11192227492 ∧
    (16 : Nat) ^ 8 ≤ (jsStringHash cexCreator).natAbs ∧
    8 < (jsToHexChars (jsStringHash cexCreator).natAbs).length := by
  refine ⟨?_, ?_, ?_⟩ <;> decide

/-- C10 amended: for every input whose code units are UTF-16 (below `2^16`),
whose total length is at most `2^20` (where JavaScript arithmetic is still
exact), and with the timestamp below `16^16`, `generateCoinSalt` returns
`"0x"` followed by exactly 64 lowercase hexadecimal digits — 16 digits of
zero-padded timestamp and 48 digits of the zero-padded absolute value of the
string hash.  The hash, however, is not a 32-bit value: its absolute value is
only bounded by `2^32` times the input length and can exceed 8 hexadecimal
digits, the 48-digit field merely absorbs the overflow. -/
theorem generateCoinSalt_well_formed (creator name symbol metadataUri : List Nat)
    (now : Nat) (hnow : now < 16 ^ 16)
    (hlen : (creator ++ name ++ symbol ++ metadataUri).length ≤ 2 ^ 20)
    (hcodes : ∀ c ∈ creator ++ name ++ symbol ++ metadataUri, c < 2 ^ 16) :
    (generateCoinSalt creator name symbol metadataUri now).data.length = 66 ∧
    (generateCoinSalt creator name symbol metadataUri now).data.take 2 = ['0', 'x'] ∧
    ((generateCoinSalt creator name symbol metadataUri now).data.drop 2).length = 64 ∧
    ((generateCoinSalt creator name symbol metadataUri now).data.drop 2).all
      isHexDigit = true := by
  have habs : (jsStringHash (creator ++ name ++ symbol ++ metadataUri)).natAbs <
      16 ^ 48 := by
    have h1 := jsStringHash_natAbs_le _ hcodes
    have h2 : (creator ++ name ++ symbol ++ metadataUri).length * 2 ^ 32 ≤
        2 ^ 20 * 2 ^ 32 := Nat.mul_le_mul_right _ hlen
    have h3 : (2 : Nat) ^ 20 * 2 ^ 32 < 16 ^ 48 := by norm_num
    omega
  have hT : (padStartList (jsToHexChars now) 16 '0').length = 16 :=
    padStartList_length _ _ _ (jsToHexChars_length_le now 16 (by norm_num) hnow)
  have hH : (padStartList
      (jsToHexChars (jsStringHash (creator ++ name ++ symbol ++ metadataUri)).natAbs)
      48 '0').length = 48 :=
    padStartList_length _ _ _ (jsToHexChars_length_le _ 48 (by norm_num) habs)
  have hdata : (generateCoinSalt creator name symbol metadataUri now).data =
      '0' :: 'x' :: (padStartList (jsToHexChars now) 16 '0' ++
        padStartList
          (jsToHexChars (jsStringHash (creator ++ name ++ symbol ++ metadataUri)).natAbs)
          48 '0') := rfl
  refine ⟨?_, ?_, ?_, ?_⟩
  · rw [hdata]
    simp only [List.length_cons, List.length_append, hT, hH]
  · rw [hdata]
    rfl
  · rw [hdata]
    simp only [List.drop_succ_cons, List.drop_zero, List.length_append, hT, hH]
  · rw [hdata]
    simp only [List.drop_succ_cons, List.drop_zero, List.all_eq_true]
    intro c hc
    have hmem : c ∈ hexDigits := by
      rcases List.mem_append.mp hc with hm | hm
      · rcases padStartList_mem _ _ _ _ hm with rfl | hm2
        · decide
        · exact jsToHexChars_mem _ _ hm2
      · rcases padStartList_mem _ _ _ _ hm with rfl | hm2
        · decide
        · exact jsToHexChars_mem _ _ hm2
    simpa [isHexDigit] using hmem

/-- Witness for the amended C10 at a concrete input. -/
theorem generateCoinSalt_well_formed_witness :
    (0 : Nat) < 16 ^ 16 ∧
    (generateCoinSalt [] [] [] [] 0).data.length = 66 ∧
    ((generateCoinSalt [] [] [] [] 0).data.drop 2).all isHexDigit = true :=
  ⟨by norm_num,
    (generateCoinSalt_well_formed [] [] [] [] 0 (by norm_num) (by decide)
      (by intro c hc; simp at hc)).1,
    (generateCoinSalt_well_formed [] [] [] [] 0 (by norm_num) (by decide)
      (by intro c hc; simp at hc)).2.2.2⟩

end GaslessDeployment
